import Mathlib

/-!
Verification of the Free-Game-Scraper pipeline (src/FreeGamesScraper.py).

The Python source is shallowly embedded: each relevant function is translated
into an executable Lean definition over explicit data types.  JSON values are
modelled by typed structures with `Option` fields for keys that may be missing
(or null / falsy), strings are ASCII (Python's `str.lower`, `str.strip` and the
regex `\b\w+\b` are modelled on ASCII characters, which covers every literal the
source and the spec mention), and operations that can raise an exception in
Python return `Option` (with `none` for the raised exception).
-/

namespace FreeGamesScraper

/-- The normalized offer record produced by the adapters
(the `game_info` dictionaries in the source).  Keys that only some adapters
set are `Option` fields; `none` models the key being absent from the dict. -/
structure Offer where
  title : String
  platform : String
  current_price : String
  url : String
  original_price : Option String := none
  end_date : Option String := none
  description : Option String := none
  type : Option String := none
  image_url : Option String := none
  discount_percent : Option Int := none
  deriving Repr, DecidableEq

/-! ### Character-level string helpers

`lowerChar` models Python `str.lower` on ASCII, `isWordChar` the regex class
`\w` on ASCII (letters, digits, underscore), `isSpaceChar` the whitespace
stripped by Python `str.strip` on ASCII. -/

/-- ASCII lower-casing of one character (`str.lower`, restricted to ASCII). -/
def lowerChar : Char → Char
  | 'A' => 'a' | 'B' => 'b' | 'C' => 'c' | 'D' => 'd' | 'E' => 'e' | 'F' => 'f'
  | 'G' => 'g' | 'H' => 'h' | 'I' => 'i' | 'J' => 'j' | 'K' => 'k' | 'L' => 'l'
  | 'M' => 'm' | 'N' => 'n' | 'O' => 'o' | 'P' => 'p' | 'Q' => 'q' | 'R' => 'r'
  | 'S' => 's' | 'T' => 't' | 'U' => 'u' | 'V' => 'v' | 'W' => 'w' | 'X' => 'x'
  | 'Y' => 'y' | 'Z' => 'z'
  | c => c

/-- The regex character class `\w` (ASCII): letters, digits and underscore. -/
def isWordChar (c : Char) : Bool :=
  c.isAlphanum || c == '_'

/-- ASCII whitespace removed by Python `str.strip`. -/
def isSpaceChar (c : Char) : Bool :=
  c == ' ' || c == '\t' || c == '\n' || c == '\r' || c == '\x0b' || c == '\x0c'

/-- Python `str.strip`: drop leading and trailing whitespace. -/
def stripChars (l : List Char) : List Char :=
  ((l.dropWhile isSpaceChar).reverse.dropWhile isSpaceChar).reverse

/-- `game['title'].lower().strip()` from `_remove_duplicates`, as a character
list. -/
def normChars (s : String) : List Char :=
  stripChars (s.data.map lowerChar)

/-- Helper for `tokens`: `cur` holds the current (reversed) run of word
characters. -/
def tokensAux (cur : List Char) : List Char → List (List Char)
  | [] => if cur = [] then [] else [cur.reverse]
  | c :: cs =>
      if isWordChar c then tokensAux (c :: cur) cs
      else if cur = [] then tokensAux [] cs
      else cur.reverse :: tokensAux [] cs

/-- `re.findall(r'\b\w+\b', s)`: the maximal runs of word characters of `s`,
in order. -/
def tokens (l : List Char) : List (List Char) :=
  tokensAux [] l

/-- `set(re.findall(r'\b\w+\b', s))`: the set of word tokens, as a
duplicate-free list. -/
def tokenSet (l : List Char) : List (List Char) :=
  (tokens l).dedup

/-- `len(title_words & seen_words)`: the cardinality of the intersection of
two token sets (both arguments are duplicate-free lists). -/
def interCard (a b : List (List Char)) : Nat :=
  (a.filter (fun t => t ∈ b)).length

/-!
### The deduplicator `_remove_duplicates`

The inner loop `for seen_title in seen_titles` compares the incoming title's
token set against each previously accepted normalized title.  Python computes
`len(A & B) / max(len(A), len(B)) > 0.8` with float division; for the token-set
sizes a title can produce, the float comparison agrees with the exact rational
comparison `|A ∩ B| / max(|A|,|B|) > 4/5`, i.e. `5*|A ∩ B| > 4*max(|A|,|B|)`
over ℕ, which is how it is embedded.  When `max(len(A), len(B)) == 0` Python
raises `ZeroDivisionError`; this is modelled by returning `none`.

Python iterates `seen_titles` (a `set`) in unspecified order, breaking at the
first match.  The outcome is iteration-order independent: a `ZeroDivisionError`
occurs exactly when the incoming token set is empty and some seen title's token
set is empty (no comparison can break first, since an empty incoming set never
exceeds the threshold against a nonempty one), and otherwise the result is
"does some seen title exceed the threshold".  The embedding iterates the seen
titles as a list.
-/

/-- The inner loop of `_remove_duplicates`: test the incoming token set `tw`
against each seen normalized title; `some true` = duplicate found, `some false`
= no duplicate, `none` = `ZeroDivisionError`. -/
def isDupAgainst (tw : List (List Char)) : List (List Char) → Option Bool
  | [] => some false
  | s :: rest =>
      if max tw.length (tokenSet s).length = 0 then none
      else if 4 * max tw.length (tokenSet s).length < 5 * interCard tw (tokenSet s)
      then some true
      else isDupAgainst tw rest

/-- `seen_titles.add(title_lower)`: adding to a set is a no-op when the
element is already present. -/
def insertSeen (t : List Char) (seen : List (List Char)) : List (List Char) :=
  if t ∈ seen then seen else t :: seen

/-- The main loop of `_remove_duplicates`, carrying the seen-titles set. -/
def dedupGo : List Offer → List (List Char) → Option (List Offer)
  | [], _ => some []
  | g :: rest, seen =>
      match isDupAgainst (tokenSet (normChars g.title)) seen with
      | none => none
      | some true => dedupGo rest seen
      | some false => (dedupGo rest (insertSeen (normChars g.title) seen)).map (g :: ·)

/-- `_remove_duplicates(games)`; `none` models the call raising
`ZeroDivisionError`. -/
def remove_duplicates (games : List Offer) : Option (List Offer) :=
  dedupGo games []

/-! ### The specification-side view of the deduplicator -/

/-- Written from the spec's words: `overlap = |intersection| / max(|A|, |B|)`,
as an exact rational. -/
def overlapQ (a b : List (List Char)) : ℚ :=
  (interCard a b : ℚ) / ((max a.length b.length : ℕ) : ℚ)

/-- Written from the spec's words: the deduplicator processes offers in order;
an offer is dropped exactly when some previously accepted title's token set
yields overlap strictly greater than 0.8, and otherwise it is accepted and its
normalized (lower-cased, trimmed) title is added to the seen set. -/
inductive DedupeSpec : List Offer → List (List Char) → List Offer → Prop
  | nil (seen : List (List Char)) : DedupeSpec [] seen []
  | drop {g : Offer} {rest : List Offer} {seen : List (List Char)}
      {out : List Offer}
      (hdup : ∃ s ∈ seen,
        (8 : ℚ) / 10 < overlapQ (tokenSet (normChars g.title)) (tokenSet s))
      (htail : DedupeSpec rest seen out) :
      DedupeSpec (g :: rest) seen out
  | keep {g : Offer} {rest : List Offer} {seen : List (List Char)}
      {out : List Offer}
      (hnodup : ∀ s ∈ seen,
        ¬ (8 : ℚ) / 10 < overlapQ (tokenSet (normChars g.title)) (tokenSet s))
      (htail : DedupeSpec rest (insertSeen (normChars g.title) seen) out) :
      DedupeSpec (g :: rest) seen (g :: out)

/-! ### Bridge lemmas between the code and the rational overlap -/

lemma overlap_lt_of_nat {tw sw : List (List Char)}
    (h0 : max tw.length sw.length ≠ 0)
    (h1 : 4 * max tw.length sw.length < 5 * interCard tw sw) :
    (8 : ℚ) / 10 < overlapQ tw sw := by
  have hm : (0 : ℚ) < ((max tw.length sw.length : ℕ) : ℚ) := by
    exact_mod_cast Nat.pos_of_ne_zero h0
  rw [overlapQ, div_lt_div_iff₀ (by norm_num) hm]
  have hc : (4 * max tw.length sw.length : ℚ) < 5 * interCard tw sw := by
    exact_mod_cast h1
  linarith

lemma overlap_not_lt_of_nat {tw sw : List (List Char)}
    (h0 : max tw.length sw.length ≠ 0)
    (h1 : ¬ 4 * max tw.length sw.length < 5 * interCard tw sw) :
    ¬ (8 : ℚ) / 10 < overlapQ tw sw := by
  have hm : (0 : ℚ) < ((max tw.length sw.length : ℕ) : ℚ) := by
    exact_mod_cast Nat.pos_of_ne_zero h0
  rw [overlapQ, div_lt_div_iff₀ (by norm_num) hm]
  have hc : (5 * interCard tw sw : ℚ) ≤ 4 * max tw.length sw.length := by
    exact_mod_cast Nat.not_lt.1 h1
  intro h
  linarith

lemma isDupAgainst_true {tw : List (List Char)} :
    ∀ {seen : List (List Char)}, isDupAgainst tw seen = some true →
      ∃ s ∈ seen, (8 : ℚ) / 10 < overlapQ tw (tokenSet s) := by
  intro seen
  induction seen with
  | nil => intro h; simp [isDupAgainst] at h
  | cons s rest ih =>
      intro h
      rw [isDupAgainst] at h
      split at h
      · exact absurd h (by simp)
      · split at h
        · rename_i h0 h1
          exact ⟨s, List.mem_cons_self s rest, overlap_lt_of_nat h0 h1⟩
        · obtain ⟨t, ht, hov⟩ := ih h
          exact ⟨t, List.mem_cons_of_mem s ht, hov⟩

lemma isDupAgainst_false {tw : List (List Char)} :
    ∀ {seen : List (List Char)}, isDupAgainst tw seen = some false →
      ∀ s ∈ seen, ¬ (8 : ℚ) / 10 < overlapQ tw (tokenSet s) := by
  intro seen
  induction seen with
  | nil => intro _ s hs; simp at hs
  | cons s rest ih =>
      intro h t ht
      rw [isDupAgainst] at h
      split at h
      · exact absurd h (by simp)
      · split at h
        · exact absurd h (by simp)
        · rename_i h0 h1
          rcases List.mem_cons.1 ht with rfl | ht'
          · exact overlap_not_lt_of_nat h0 h1
          · exact ih h t ht'

/-- The main loop of `_remove_duplicates` refines the spec's description
whenever it returns (i.e. whenever Python does not raise). -/
lemma dedupGo_refines :
    ∀ (gs : List Offer) (seen : List (List Char)) (out : List Offer),
      dedupGo gs seen = some out → DedupeSpec gs seen out := by
  intro gs
  induction gs with
  | nil =>
      intro seen out h
      rw [dedupGo] at h
      obtain rfl : ([] : List Offer) = out := Option.some.inj h
      exact DedupeSpec.nil seen
  | cons g rest ih =>
      intro seen out h
      rw [dedupGo] at h
      split at h
      · exact absurd h (by simp)
      · exact DedupeSpec.drop (isDupAgainst_true (by assumption))
          (ih seen out h)
      · obtain ⟨out', hout', rfl⟩ := Option.map_eq_some'.1 h
        exact DedupeSpec.keep (isDupAgainst_false (by assumption))
          (ih _ out' hout')

/-! ### Idempotence and sublist structure of the deduplicator -/

/-- Rerunning the main loop on its own output (with the same initial seen set)
reproduces the output: every kept offer is compared against exactly the seen
set it was accepted against in the first run, because dropped offers never
extend the seen set. -/
lemma dedupGo_idem :
    ∀ (gs : List Offer) (seen : List (List Char)) (out : List Offer),
      dedupGo gs seen = some out → dedupGo out seen = some out := by
  intro gs
  induction gs with
  | nil =>
      intro seen out h
      rw [dedupGo] at h
      obtain rfl : ([] : List Offer) = out := Option.some.inj h
      rw [dedupGo]
  | cons g rest ih =>
      intro seen out h
      rw [dedupGo] at h
      split at h
      · exact absurd h (by simp)
      · exact ih seen out h
      · obtain ⟨out', hout', rfl⟩ := Option.map_eq_some'.1 h
        rw [dedupGo]
        rename_i hdup
        rw [hdup, ih _ out' hout']
        rfl

/-- The main loop only ever removes elements: its output is an
order-preserving subsequence of its input, each retained offer kept with all
its fields unchanged. -/
lemma dedupGo_sublist :
    ∀ (gs : List Offer) (seen : List (List Char)) (out : List Offer),
      dedupGo gs seen = some out → List.Sublist out gs := by
  intro gs
  induction gs with
  | nil =>
      intro seen out h
      rw [dedupGo] at h
      obtain rfl : ([] : List Offer) = out := Option.some.inj h
      exact List.Sublist.refl []
  | cons g rest ih =>
      intro seen out h
      rw [dedupGo] at h
      split at h
      · exact absurd h (by simp)
      · exact List.Sublist.cons g (ih seen out h)
      · obtain ⟨out', hout', rfl⟩ := Option.map_eq_some'.1 h
        exact List.Sublist.cons₂ g (ih _ out' hout')

/-! ### Totality of the deduplicator on titles with a word character -/

/-- If the incoming token set is nonempty, every comparison's denominator
`max(len(A), len(B))` is positive, so no `ZeroDivisionError` occurs. -/
lemma isDupAgainst_ne_none {tw : List (List Char)} (htw : tw ≠ []) :
    ∀ seen, isDupAgainst tw seen ≠ none := by
  intro seen
  induction seen with
  | nil => simp [isDupAgainst]
  | cons s rest ih =>
      rw [isDupAgainst]
      have h0 : max tw.length (tokenSet s).length ≠ 0 := by
        have : tw.length ≠ 0 := by
          simpa using List.length_pos.2 htw |>.ne'
        omega
      rw [if_neg h0]
      split
      · simp
      · exact ih

/-- The main loop returns normally whenever every offer's title tokenizes to a
nonempty token set. -/
lemma dedupGo_isSome :
    ∀ (gs : List Offer) (seen : List (List Char)),
      (∀ g ∈ gs, tokenSet (normChars g.title) ≠ []) →
      (dedupGo gs seen).isSome := by
  intro gs
  induction gs with
  | nil => intro seen _; rw [dedupGo]; rfl
  | cons g rest ih =>
      intro seen hall
      have hg : tokenSet (normChars g.title) ≠ [] :=
        hall g (List.mem_cons_self g rest)
      have hrest : ∀ g' ∈ rest, tokenSet (normChars g'.title) ≠ [] :=
        fun g' hg' => hall g' (List.mem_cons_of_mem g hg')
      rw [dedupGo]
      rcases hd : isDupAgainst (tokenSet (normChars g.title)) seen with _ | b
      · exact absurd hd (isDupAgainst_ne_none hg seen)
      · cases b
        · simpa using ih (insertSeen (normChars g.title) seen) hrest
        · exact ih seen hrest

/-! ### A word character in the title survives normalization -/

lemma lowerChar_word {c : Char} (h : isWordChar c = true) :
    isWordChar (lowerChar c) = true := by
  unfold lowerChar
  split <;> first | rfl | exact h

lemma word_not_space {c : Char} (h : isWordChar c = true) :
    isSpaceChar c = false := by
  rcases hval : isSpaceChar c with _ | _
  · rfl
  · exfalso
    simp only [isSpaceChar, Bool.or_eq_true, beq_iff_eq] at hval
    rcases hval with (((((rfl | rfl) | rfl) | rfl) | rfl) | rfl) <;>
      exact absurd h (by decide)

lemma mem_dropWhile {p : Char → Bool} {c : Char} (hc : p c = false) :
    ∀ {l : List Char}, c ∈ l → c ∈ l.dropWhile p := by
  intro l
  induction l with
  | nil => simp
  | cons a t ih =>
      intro h
      rw [List.dropWhile_cons]
      split
      · rcases List.mem_cons.1 h with rfl | ht
        · rename_i hpa; exact absurd hpa (by simp [hc])
        · exact ih ht
      · exact h

lemma mem_stripChars {c : Char} {l : List Char} (hc : isSpaceChar c = false)
    (h : c ∈ l) : c ∈ stripChars l := by
  unfold stripChars
  rw [List.mem_reverse]
  apply mem_dropWhile hc
  rw [List.mem_reverse]
  exact mem_dropWhile hc h

lemma tokensAux_ne_nil_of_cur :
    ∀ (l cur : List Char), cur ≠ [] → tokensAux cur l ≠ [] := by
  intro l
  induction l with
  | nil =>
      intro cur hcur
      rw [tokensAux, if_neg hcur]
      simp
  | cons a t ih =>
      intro cur hcur
      rw [tokensAux]
      split
      · exact ih (a :: cur) (by simp)
      all_goals simp_all

lemma tokensAux_ne_nil_of_mem :
    ∀ (l cur : List Char) (c : Char), c ∈ l → isWordChar c = true →
      tokensAux cur l ≠ [] := by
  intro l
  induction l with
  | nil => intro cur c hc _; simp at hc
  | cons a t ih =>
      intro cur c hc hw
      rw [tokensAux]
      split
      · exact tokensAux_ne_nil_of_cur t (a :: cur) (by simp)
      · rename_i ha
        have hct : c ∈ t := by
          rcases List.mem_cons.1 hc with rfl | h
          · exact absurd hw (by simp [ha])
          · exact h
        split
        · exact ih [] c hct hw
        · simp

/-- A title containing a word character tokenizes (after lower-casing and
stripping) to a nonempty token set. -/
lemma tokenSet_ne_nil_of_wordchar {s : String}
    (h : ∃ c ∈ s.data, isWordChar c = true) :
    tokenSet (normChars s) ≠ [] := by
  obtain ⟨c, hc, hw⟩ := h
  have hw' : isWordChar (lowerChar c) = true := lowerChar_word hw
  have hm : lowerChar c ∈ s.data.map lowerChar := List.mem_map_of_mem _ hc
  have hmem : lowerChar c ∈ normChars s :=
    mem_stripChars (word_not_space hw') hm
  intro hd
  exact tokensAux_ne_nil_of_mem (normChars s) [] (lowerChar c) hmem hw'
    ((List.dedup_eq_nil _).1 hd)

/-! ### Sample offers for the concrete deduplication scenarios -/

def offerControlUltimate : Offer :=
  { title := "Control Ultimate Edition", platform := "Epic Games Store",
    current_price := "Free", url := "https://store.epicgames.com/control" }

def offerControlColon : Offer :=
  { title := "Control: Ultimate Edition", platform := "GOG",
    current_price := "Free", url := "https://www.gog.com/control" }

def offerControl : Offer :=
  { title := "Control", platform := "Steam", current_price := "Free",
    url := "https://store.steampowered.com/app/870780" }

def offerSameA : Offer :=
  { title := "Same Game", platform := "Epic Games Store",
    current_price := "Free", url := "http://a" }

def offerSameB : Offer :=
  { title := "same game!", platform := "GOG", current_price := "Free",
    url := "http://b" }

def offerBang : Offer :=
  { title := "!!!", platform := "GOG", current_price := "Free",
    url := "https://www.gog.com/giveaway" }

def offerQMark : Offer :=
  { title := "???", platform := "GOG", current_price := "Free",
    url := "https://www.gog.com/giveaway" }

/-- C1: whenever `_remove_duplicates` returns, it has processed the offers in
order, dropping an offer exactly when some previously accepted title's token
set has overlap `|intersection| / max(|A|, |B|)` strictly greater than 0.8 and
otherwise accepting it and adding its normalized title to the seen set; in
particular "Control Ultimate Edition" followed by "Control: Ultimate Edition"
collapses to one offer, while "Control" followed by "Control Ultimate Edition"
yields two offers. -/
theorem C1_dedupe_overlap_rule :
    (∀ (gs out : List Offer), remove_duplicates gs = some out →
      DedupeSpec gs [] out) ∧
    remove_duplicates [offerControlUltimate, offerControlColon] =
      some [offerControlUltimate] ∧
    remove_duplicates [offerControl, offerControlUltimate] =
      some [offerControl, offerControlUltimate] :=
  ⟨fun gs out h => dedupGo_refines gs [] out h, by decide, by decide⟩

/-- Witness for C1 at a concrete input. -/
theorem C1_dedupe_overlap_rule_witness :
    DedupeSpec [offerControl, offerControlUltimate] []
      [offerControl, offerControlUltimate] :=
  C1_dedupe_overlap_rule.1 [offerControl, offerControlUltimate]
    [offerControl, offerControlUltimate] (by decide)

/-- C6: the deduplicator is idempotent: running `_remove_duplicates` on its
own result changes nothing (with the raising case, modelled by `none`,
propagated through `Option.bind`). -/
theorem C6_dedupe_idempotent :
    ∀ gs : List Offer,
      (remove_duplicates gs).bind remove_duplicates = remove_duplicates gs := by
  intro gs
  rcases h : remove_duplicates gs with _ | out
  · rfl
  · exact dedupGo_idem gs [] out h

/-- C7: the deduplicator's output is an order-preserving subsequence of its
input — each retained offer is literally the first-seen input offer, with all
its fields unchanged and nothing merged from later duplicates; in particular,
of two offers with the same normalized tokens but different urls, the first
submitted one is the one present in the output. -/
theorem C7_dedupe_first_seen_wins :
    (∀ (gs out : List Offer), remove_duplicates gs = some out →
      List.Sublist out gs) ∧
    remove_duplicates [offerSameA, offerSameB] = some [offerSameA] :=
  ⟨fun gs out h => dedupGo_sublist gs [] out h, by decide⟩

/-- Witness for C7 at a concrete input. -/
theorem C7_dedupe_first_seen_wins_witness :
    List.Sublist [offerSameA] [offerSameA, offerSameB] :=
  C7_dedupe_first_seen_wins.1 [offerSameA, offerSameB] [offerSameA] (by decide)

/-- C10: if every offer's title contains at least one word character, the
deduplicator's overlap computation never divides by zero and the operation
returns normally; and the precondition is necessary: on two offers whose
titles contain no word characters the denominator `max(|A|, |B|)` is zero when
the second is compared against the first, and Python raises
`ZeroDivisionError` (modelled by `none`). -/
theorem C10_dedupe_no_div_by_zero :
    (∀ gs : List Offer,
      (∀ g ∈ gs, ∃ c ∈ g.title.data, isWordChar c = true) →
      ∃ out, remove_duplicates gs = some out) ∧
    remove_duplicates [offerBang, offerQMark] = none := by
  constructor
  · intro gs hall
    exact Option.isSome_iff_exists.1
      (dedupGo_isSome gs []
        (fun g hg => tokenSet_ne_nil_of_wordchar (hall g hg)))
  · decide

/-- Witness for C10 at a concrete input. -/
theorem C10_dedupe_no_div_by_zero_witness :
    ∃ out, remove_duplicates [offerControl] = some out :=
  C10_dedupe_no_div_by_zero.1 [offerControl] (by decide)

/-!
### The orchestrator `scrape_all_platforms_threaded`

Each adapter runs in a worker thread; `future.result()` either returns the
adapter's offer list or re-raises the exception from the worker, modelled by
`Except String (List Offer)`.  The loop `for future in as_completed(...)`
consumes results in completion order; the embedding takes that completed-order
list as its input and models the accumulation into `all_games`: on success the
offers are appended (`all_games.extend(games)`), on failure the error is
logged and nothing is appended.
-/

/-- One step of the accumulation loop over completed futures. -/
def collectStep (acc : List Offer) (r : Except String (List Offer)) :
    List Offer :=
  match r with
  | Except.ok gs => acc ++ gs
  | Except.error _ => acc

/-- The `all_games` accumulation of `scrape_all_platforms_threaded` over the
adapter results in completion order. -/
def collectResults (results : List (Except String (List Offer))) :
    List Offer :=
  results.foldl collectStep []

/-- The offers of a succeeding adapter (`none` for a failing one). -/
def okOffers (r : Except String (List Offer)) : Option (List Offer) :=
  match r with
  | Except.ok gs => some gs
  | Except.error _ => none

lemma collectResults_foldl (rs : List (Except String (List Offer))) :
    ∀ acc : List Offer, rs.foldl collectStep acc = acc ++ collectResults rs := by
  induction rs with
  | nil => intro acc; simp [collectResults]
  | cons r t ih =>
      intro acc
      rw [collectResults, List.foldl_cons, List.foldl_cons, ih, ih]
      cases r <;> simp [collectStep]

lemma collectResults_cons (r : Except String (List Offer))
    (rs : List (Except String (List Offer))) :
    collectResults (r :: rs) =
      collectStep [] r ++ collectResults rs := by
  rw [collectResults, List.foldl_cons, collectResults_foldl]

/-- C2: the orchestrator's accumulated offer list equals the concatenation of
the offers returned by the succeeding adapters, and a failing adapter
contributes zero offers without preventing any other adapter's offers from
being collected: deleting the failing adapter's result leaves the accumulated
list unchanged. -/
theorem C2_orchestrator_isolates_failures :
    (∀ rs : List (Except String (List Offer)),
      collectResults rs = (rs.filterMap okOffers).flatten) ∧
    (∀ (pre post : List (Except String (List Offer))) (e : String),
      collectResults (pre ++ Except.error e :: post) =
        collectResults (pre ++ post)) := by
  constructor
  · intro rs
    induction rs with
    | nil => rfl
    | cons r t ih =>
        rw [collectResults_cons, ih]
        cases r <;> simp [collectStep, okOffers]
  · intro pre post e
    induction pre with
    | nil =>
        rw [List.nil_append, List.nil_append, collectResults_cons]
        rfl
    | cons p t ih =>
        rw [List.cons_append, List.cons_append, collectResults_cons,
          collectResults_cons, ih]

/-!
### The Epic Games adapter `scrape_epic_games`

The JSON response is modelled by typed structures.  `Option` marks keys that
may be absent (or null); for the keys the source tests only for truthiness
(`promotions`, `promotionalOffers`, `totalPrice`), `none` also covers the
present-but-falsy value (empty dict / empty list / null), and a present list
key is a `List` with the emptiness test written out.
-/

structure PromoEntry where
  endDate : Option String := none
  deriving Repr, DecidableEq

structure PromoOffer where
  promotionalOffers : List PromoEntry := []
  deriving Repr, DecidableEq

structure Promotions where
  promotionalOffers : List PromoOffer := []
  deriving Repr, DecidableEq

structure TotalPrice where
  originalPrice : Option Int := none
  deriving Repr, DecidableEq

structure EpicPrice where
  totalPrice : Option TotalPrice := none
  deriving Repr, DecidableEq

structure KeyImage where
  type : Option String := none
  url : Option String := none
  deriving Repr, DecidableEq

structure EpicMapping where
  pageSlug : Option String := none
  deriving Repr, DecidableEq

structure CatalogNs where
  mappings : Option (List EpicMapping) := none
  deriving Repr, DecidableEq

structure EpicElement where
  title : Option String := none
  description : Option String := none
  price : Option EpicPrice := none
  promotions : Option Promotions := none
  keyImages : Option (List KeyImage) := none
  catalogNs : Option CatalogNs := none
  deriving Repr, DecidableEq

structure SearchStore where
  elements : Option (List EpicElement) := none
  deriving Repr, DecidableEq

structure EpicCatalog where
  searchStore : Option SearchStore := none
  deriving Repr, DecidableEq

structure EpicData where
  Catalog : Option EpicCatalog := none
  deriving Repr, DecidableEq

structure EpicResponse where
  data : Option EpicData := none
  deriving Repr, DecidableEq

/-- `f"${price / 100:.2f}"`: minor-currency units rendered as dollars with two
decimals.  Python formats the float `price / 100`; for the integer cent values
a store price can take, the float rounding agrees with this exact decimal
rendering. -/
def priceFormat (price : Int) : String :=
  "$" ++ toString (price / 100) ++ "." ++
    (if (price % 100).toNat < 10 then "0" else "") ++
    toString (price % 100).toNat

/-- `_get_epic_original_price`: `"Unknown"` when the price subfields are
missing, `"Free"` when the original price is not positive, otherwise the
formatted price. -/
def getEpicOriginalPrice (g : EpicElement) : String :=
  match g.price with
  | none => "Unknown"
  | some p =>
      match p.totalPrice with
      | none => "Unknown"
      | some tp =>
          if tp.originalPrice.getD 0 > 0
          then priceFormat (tp.originalPrice.getD 0)
          else "Free"

/-- `_get_epic_image_url`: the url of the first key image of type
`OfferImageWide`, else the empty string. -/
def getEpicImageUrl (g : EpicElement) : String :=
  match g.keyImages with
  | none => ""
  | some imgs =>
      match imgs.find? (fun im => im.type == some "OfferImageWide") with
      | some im => im.url.getD ""
      | none => ""

/-- `_get_epic_url`: the product page built from the first catalog mapping's
`pageSlug`, defaulting to the platform root URL when the slug is missing,
empty, or the mappings list is empty (the `[0]` `IndexError` is caught). -/
def getEpicUrl (g : EpicElement) : String :=
  match g.catalogNs with
  | none => "https://store.epicgames.com"
  | some ns =>
      match ns.mappings with
      | none => "https://store.epicgames.com"
      | some [] => "https://store.epicgames.com"
      | some (m :: _) =>
          match m.pageSlug with
          | none => "https://store.epicgames.com"
          | some slug =>
              if slug = "" then "https://store.epicgames.com"
              else "https://store.epicgames.com/en-US/p/" ++ slug

/-- The body of the `for game in search_store['elements']` loop for one
catalog element: one offer per promotional-offer entry whose inner list is
truthy, kept only when the original price string is not `"Free"`. -/
def epicElementOffers (g : EpicElement) : List Offer :=
  match g.promotions with
  | none => []
  | some promos =>
      (promos.promotionalOffers.map (fun off =>
        match off.promotionalOffers with
        | [] => []
        | entry :: _ =>
            if getEpicOriginalPrice g ≠ "Free" then
              [{ title := g.title.getD "Unknown",
                 platform := "Epic Games Store",
                 original_price := some (getEpicOriginalPrice g),
                 current_price := "Free",
                 url := getEpicUrl g,
                 end_date := entry.endDate,
                 description := some (g.description.getD ""),
                 image_url := some (getEpicImageUrl g),
                 type := some "Current Free Game" }]
            else [])).flatten

/-- A network-fetch outcome feeding an adapter: the transport can fail
(`requests` raising on the fetch or on `raise_for_status`), `response.json()`
can fail to parse, or a parsed response arrives. -/
inductive FetchOutcome (α : Type) where
  | transportError : String → FetchOutcome α
  | parseError : String → FetchOutcome α
  | ok : α → FetchOutcome α
  deriving Repr, DecidableEq

/-- `scrape_epic_games`, as a function of the fetch outcome: the whole body is
wrapped in `try/except Exception`, so every failure is caught, logged (the
second component models the `logger.error` line) and the games accumulated so
far — none, since all modelled failures precede the loop — are returned. -/
def scrape_epic_games (f : FetchOutcome EpicResponse) :
    List Offer × Option String :=
  match f with
  | FetchOutcome.transportError e =>
      ([], some ("Error scraping Epic Games: " ++ e))
  | FetchOutcome.parseError e =>
      ([], some ("Error scraping Epic Games: " ++ e))
  | FetchOutcome.ok resp =>
      match resp.data with
      | none => ([], none)
      | some d =>
          match d.Catalog with
          | none => ([], none)
          | some cat =>
              match cat.searchStore with
              | none =>
                  ([], some "Error scraping Epic Games: KeyError: searchStore")
              | some ss =>
                  match ss.elements with
                  | none =>
                      ([], some "Error scraping Epic Games: KeyError: elements")
                  | some els => ((els.map epicElementOffers).flatten, none)

/-- `scrape_microsoft_store`: the body fetches and parses but never appends to
`games`, so every outcome returns the empty list; failures are caught and
logged. -/
def scrape_microsoft_store (f : FetchOutcome Unit) :
    List Offer × Option String :=
  match f with
  | FetchOutcome.transportError e =>
      ([], some ("Error scraping Microsoft Store: " ++ e))
  | FetchOutcome.parseError e =>
      ([], some ("Error scraping Microsoft Store: " ++ e))
  | FetchOutcome.ok _ => ([], none)

/-- The element has an active promotional offer entry: a promotions block with
some promotional offer whose inner entry list is truthy. -/
def epicActivePromo (g : EpicElement) : Prop :=
  ∃ promos, g.promotions = some promos ∧
    ∃ off ∈ promos.promotionalOffers, off.promotionalOffers ≠ []

/-- A parsed response in which `data` and `Catalog` are present but the
unguarded key `searchStore` is missing (a `KeyError` shape). -/
def epicRespNoSearchStore : EpicResponse :=
  { data := some { Catalog := some { searchStore := none } } }

/-- A parsed response in which the unguarded key `elements` is missing. -/
def epicRespNoElements : EpicResponse :=
  { data := some { Catalog := some { searchStore := some { elements := none } } } }

/-- C3: on every modelled failure mode — transport error, parse failure, and
an unexpected response shape (`searchStore` or `elements` missing, the keys
the source reads unguarded) — `scrape_epic_games` returns normally with an
empty offer list and a logged, descriptive error instead of raising past its
boundary, and `scrape_microsoft_store` returns an empty list on every outcome
with a logged error on its failures. -/
theorem C3_adapters_catch_failures :
    (∀ e, scrape_epic_games (FetchOutcome.transportError e) =
      ([], some ("Error scraping Epic Games: " ++ e))) ∧
    (∀ e, scrape_epic_games (FetchOutcome.parseError e) =
      ([], some ("Error scraping Epic Games: " ++ e))) ∧
    scrape_epic_games (FetchOutcome.ok epicRespNoSearchStore) =
      ([], some "Error scraping Epic Games: KeyError: searchStore") ∧
    scrape_epic_games (FetchOutcome.ok epicRespNoElements) =
      ([], some "Error scraping Epic Games: KeyError: elements") ∧
    (∀ f : FetchOutcome Unit, (scrape_microsoft_store f).1 = []) ∧
    (∀ e, scrape_microsoft_store (FetchOutcome.transportError e) =
      ([], some ("Error scraping Microsoft Store: " ++ e))) ∧
    (∀ e, scrape_microsoft_store (FetchOutcome.parseError e) =
      ([], some ("Error scraping Microsoft Store: " ++ e))) := by
  refine ⟨fun e => rfl, fun e => rfl, rfl, rfl, ?_, fun e => rfl, fun e => rfl⟩
  intro f
  cases f <;> rfl

/-- The promotions block shared by the two concrete Epic scenarios: one
promotional offer with one (truthy) entry. -/
def epicPromoActive : Promotions :=
  { promotionalOffers :=
      [{ promotionalOffers := [{ endDate := some "2025-01-01T00:00:00.000Z" }] }] }

/-- A catalog element with an active promotional offer and `originalPrice == 0`. -/
def epicElemZero : EpicElement :=
  { title := some "Zero Game",
    price := some { totalPrice := some { originalPrice := some 0 } },
    promotions := some epicPromoActive }

/-- A catalog element with an active promotional offer and
`originalPrice == 2999`. -/
def epicElem2999 : EpicElement :=
  { title := some "Paid Game",
    price := some { totalPrice := some { originalPrice := some 2999 } },
    promotions := some epicPromoActive }

/-- C4: the Epic adapter emits an offer for a catalog element with price
subfields holding `originalPrice == p` only if the element has an active
promotional offer entry and `p` is nonzero; concretely, an element with
`originalPrice == 0` and an active promotional offer is excluded, and one with
`originalPrice == 2999` and an active promotional offer is included with
`original_price == "$29.99"`. -/
theorem C4_epic_price_filter :
    (∀ (g : EpicElement) (p : Int),
      g.price = some { totalPrice := some { originalPrice := some p } } →
      epicElementOffers g ≠ [] →
      epicActivePromo g ∧ p ≠ 0) ∧
    epicElementOffers epicElemZero = [] ∧
    epicElementOffers epicElem2999 =
      [{ title := "Paid Game", platform := "Epic Games Store",
         original_price := some "$29.99", current_price := "Free",
         url := "https://store.epicgames.com",
         end_date := some "2025-01-01T00:00:00.000Z",
         description := some "", image_url := some "",
         type := some "Current Free Game" }] := by
  refine ⟨?_, by decide, by decide⟩
  intro g p hp hne
  rw [epicElementOffers] at hne
  rcases hpromo : g.promotions with _ | promos
  · rw [hpromo] at hne
    exact absurd rfl hne
  · rw [hpromo] at hne
    have hmem : ∃ x ∈ promos.promotionalOffers.map (fun off =>
        match off.promotionalOffers with
        | [] => ([] : List Offer)
        | entry :: _ =>
            if getEpicOriginalPrice g ≠ "Free" then
              [{ title := g.title.getD "Unknown",
                 platform := "Epic Games Store",
                 original_price := some (getEpicOriginalPrice g),
                 current_price := "Free",
                 url := getEpicUrl g,
                 end_date := entry.endDate,
                 description := some (g.description.getD ""),
                 image_url := some (getEpicImageUrl g),
                 type := some "Current Free Game" }]
            else []), x ≠ [] := by
      by_contra hc
      push_neg at hc
      exact hne (List.flatten_eq_nil_iff.2 hc)
    obtain ⟨x, hx, hxne⟩ := hmem
    obtain ⟨off, hoff, rfl⟩ := List.mem_map.1 hx
    have hprice : getEpicOriginalPrice g ≠ "Free" := by
      intro hfree
      rcases hent : off.promotionalOffers with _ | ⟨entry, rest⟩ <;>
        rw [hent] at hxne <;> simp [hfree] at hxne
    have hop : getEpicOriginalPrice g =
        if p > 0 then priceFormat p else "Free" := by
      rw [getEpicOriginalPrice, hp]
      simp
    refine ⟨⟨promos, hpromo, off, hoff, ?_⟩, ?_⟩
    · intro hoffnil
      rw [hoffnil] at hxne
      simp at hxne
    · intro hp0
      rw [hp0] at hop
      simp at hop
      exact hprice hop

/-- Witness for C4 at a concrete input. -/
theorem C4_epic_price_filter_witness :
    epicActivePromo epicElem2999 ∧ (2999 : Int) ≠ 0 :=
  C4_epic_price_filter.1 epicElem2999 2999 rfl (by decide)

/-!
### The Steam adapter `scrape_steam_weekend_deals`

The claim concerns the filter over `data['specials']['items']`; one item of
that collection is modelled with `Option` fields for keys `item.get(...)` may
find missing.
-/

structure SteamItem where
  name : Option String := none
  id : Option Int := none
  final_price : Option Int := none
  original_price : Option Int := none
  discount_percent : Option Int := none
  large_capsule_image : Option String := none
  deriving Repr, DecidableEq

/-- The body of the `for item in data['specials']['items']` loop for one item:
`item.get('final_price') == 0 and item.get('original_price', 0) > 0 and
item.get('discount_percent') == 100`. -/
def steamItemOffer (item : SteamItem) : Option Offer :=
  if item.final_price = some 0 ∧ item.original_price.getD 0 > 0 ∧
      item.discount_percent = some 100 then
    some { title := item.name.getD "Unknown",
           platform := "Steam",
           original_price := some (priceFormat (item.original_price.getD 0)),
           current_price := "Free",
           url := "https://store.steampowered.com/app/" ++
             (match item.id with
              | some n => toString n
              | none => ""),
           discount_percent := some (item.discount_percent.getD 0),
           image_url := some (item.large_capsule_image.getD ""),
           description := some "Steam temporary free promotion",
           type := some "Steam Weekend Deal" }
  else none

/-- The `specials` loop of `scrape_steam_weekend_deals` over the items. -/
def scrape_steam_specials (items : List SteamItem) : List Offer :=
  items.filterMap steamItemOffer

/-- A specials item that is temporarily 100%-off with original price 1999. -/
def steamItem1999 : SteamItem :=
  { name := some "Deal Game", id := some 10, final_price := some 0,
    original_price := some 1999, discount_percent := some 100,
    large_capsule_image := some "img" }

/-- A specials item that still costs 500. -/
def steamItem500 : SteamItem :=
  { name := some "Other Game", id := some 11, final_price := some 500,
    original_price := some 1999, discount_percent := some 75 }

/-- C5: a specials item yields an offer iff `final_price == 0`,
`original_price > 0` and `discount_percent == 100`; concretely, the item with
`original_price = 1999` is emitted with `original_price` formatted as
`"$19.99"`, and the item with `final_price = 500` is excluded. -/
theorem C5_steam_filter :
    (∀ it : SteamItem, (steamItemOffer it).isSome ↔
      (it.final_price = some 0 ∧ it.original_price.getD 0 > 0 ∧
        it.discount_percent = some 100)) ∧
    scrape_steam_specials [steamItem1999] =
      [{ title := "Deal Game", platform := "Steam",
         original_price := some "$19.99", current_price := "Free",
         url := "https://store.steampowered.com/app/10",
         discount_percent := some 100, image_url := some "img",
         description := some "Steam temporary free promotion",
         type := some "Steam Weekend Deal" }] ∧
    scrape_steam_specials [steamItem500] = [] := by
  refine ⟨?_, by decide, by decide⟩
  intro it
  rw [steamItemOffer]
  split_ifs with h <;> simp [h]

/-!
### The sinks `save_to_csv`, `save_to_json` and the CLI entry point `main`

`save_to_csv` is modelled as the sequence of rows it writes (`none` when it
writes no file at all).  `datetime.now().isoformat()` is called once per row,
so the write-time stamp is passed as a function of the row index; the JSON
sink's single timestamp is a plain argument.  File-system write errors are
outside the model.
-/

def csvFieldnames : List String :=
  ["title", "platform", "original_price", "current_price", "url",
   "end_date", "description", "type", "scraped_at"]

/-- `game.get(field, '')` for the header fields: a missing field renders as
the empty string.  Fields outside the header set are never looked up. -/
def getField (g : Offer) : String → String
  | "title" => g.title
  | "platform" => g.platform
  | "original_price" => g.original_price.getD ""
  | "current_price" => g.current_price
  | "url" => g.url
  | "end_date" => g.end_date.getD ""
  | "description" => g.description.getD ""
  | "type" => g.type.getD ""
  | _ => ""

/-- One CSV row: `{field: game.get(field, '') for field in fieldnames}` with
`row['scraped_at']` overwritten by the write-time stamp, written in
`fieldnames` order. -/
def csvRow (g : Offer) (now : String) : List String :=
  csvFieldnames.map (fun f => if f = "scraped_at" then now else getField g f)

/-- `save_to_csv`: when `self.free_games` is empty the function logs
"No games to save" and returns without writing anything (`none`); otherwise it
writes the header row followed by one row per offer. -/
def save_to_csv (games : List Offer) (now : Nat → String) :
    Option (List (List String)) :=
  if games = [] then none
  else some (csvFieldnames :: games.enum.map (fun p => csvRow p.2 (now p.1)))

structure JsonOutput where
  scraped_at : String
  total_games : Nat
  platforms : List String
  games : List Offer
  deriving Repr, DecidableEq

/-- `save_to_json`: always writes the object, also for zero games. -/
def save_to_json (games : List Offer) (now : String) : Option JsonOutput :=
  some { scraped_at := now, total_games := games.length,
         platforms := (games.map (fun g => g.platform)).dedup,
         games := games }

structure MainResult where
  jsonOut : Option JsonOutput
  csvOut : Option (List (List String))
  deriving Repr, DecidableEq

/-- The sink outputs of `main()` on a run whose pipeline produced `games`:
`main` calls `save_to_json()` and `save_to_csv()` with their default
filenames. -/
def mainRun (games : List Offer) (nowJson : String) (nowCsv : Nat → String) :
    MainResult :=
  { jsonOut := save_to_json games nowJson, csvOut := save_to_csv games nowCsv }

/-- C8, counterexample: on a run with zero offers the CLI does not write the
CSV sink (`save_to_csv` returns after logging "No games to save" without
creating the file), so it is false that both sink outputs are written on any
outcome. -/
theorem C8_counterexample_zero_offers_no_csv :
    (mainRun [] "2024-01-01T00:00:00" (fun _ => "2024-01-01T00:00:00")).csvOut
      = none :=
  rfl

/-- C8, amended: the CLI entry point always writes the JSON sink, including
when the pipeline produced zero offers — zero offers is a valid, non-error
outcome — but it writes the CSV sink exactly when at least one offer was
produced. -/
theorem C8_json_always_csv_iff_nonempty :
    (∀ (gs : List Offer) (nj : String) (nc : Nat → String),
      ((mainRun gs nj nc).jsonOut).isSome) ∧
    (∀ (gs : List Offer) (nj : String) (nc : Nat → String),
      ((mainRun gs nj nc).csvOut).isSome ↔ gs ≠ []) := by
  refine ⟨fun gs nj nc => rfl, ?_⟩
  intro gs nj nc
  show (save_to_csv gs nc).isSome ↔ gs ≠ []
  rw [save_to_csv]
  split_ifs with h <;> simp [h]

/-- C9, counterexample: for an empty offer list the CSV sink writes nothing at
all — not even the header row — so the claim fails as stated for every offer
list. -/
theorem C9_counterexample_empty_list_no_header :
    save_to_csv [] (fun _ => "2024-01-01T00:00:00") = none :=
  rfl

/-- An offer carrying only the fields every adapter sets. -/
def offerCsvSample : Offer :=
  { title := "T", platform := "P", current_price := "Free", url := "U" }

/-- C9, amended: for every nonempty offer list the CSV sink writes exactly the
header row `title,platform,original_price,current_price,url,end_date,
description,type,scraped_at` followed by one row per offer, each row stamped
with its own write-time `scraped_at`; a field the offer lacks renders as the
empty string, and fields outside the header set (`image_url`,
`discount_percent`) are omitted from the row.  (For an empty offer list the
sink writes nothing.) -/
theorem C9_csv_header_and_rows :
    (∀ (gs : List Offer) (now : Nat → String), gs ≠ [] →
      save_to_csv gs now =
        some (csvFieldnames :: gs.enum.map (fun p => csvRow p.2 (now p.1)))) ∧
    csvFieldnames = ["title", "platform", "original_price", "current_price",
      "url", "end_date", "description", "type", "scraped_at"] ∧
    (∀ now : String,
      csvRow offerCsvSample now = ["T", "P", "", "Free", "U", "", "", "", now]) ∧
    (∀ (g : Offer) (im : Option String) (dp : Option Int) (now : String),
      csvRow { g with image_url := im, discount_percent := dp } now =
        csvRow g now) := by
  refine ⟨?_, rfl, fun now => rfl, fun g im dp now => rfl⟩
  intro gs now h
  rw [save_to_csv, if_neg h]

/-- Witness for the amended C9 at a concrete input. -/
theorem C9_csv_header_and_rows_witness :
    save_to_csv [offerCsvSample] (fun _ => "TS") =
      some [csvFieldnames, csvRow offerCsvSample "TS"] :=
  C9_csv_header_and_rows.1 [offerCsvSample] (fun _ => "TS") (by decide)

end FreeGamesScraper
